import Mathlib

/-!
Verification of the retrieval-and-analytics pipeline of the DS18B20
temperature dashboard (src/thingspeak_dashboard.py).

The embedding models the two stages the claims are about:

* fetch_data (lines 19-44): HTTP fetch, JSON feeds extraction, pandas
  DataFrame construction, timestamp parsing plus fixed UTC-3 offset,
  numeric coercion, and an ascending sort on the timestamp column.
* the Home branch of main (lines 113-168): current value and delta from
  the last two positions, data range with elapsed days, and per-field
  extremes via max, min, idxmax, idxmin.

Machine conventions: timestamps are integers (seconds since the Unix
epoch, after the display offset has been added); a missing timestamp
(NaT in pandas) is Option.none; numeric readings are rationals and NaN
is Option.none; Python exceptions are an Except error value.  The
remote response is abstracted as either a transport-or-status failure
(everything the requests library raises) or a parsed JSON body that
either has a feeds array or lacks it.
-/

namespace DS

/-- A JSON value in a feed entry: null, a string, or a number.  Numbers
reaching pandas are modelled as rationals. -/
inductive JVal
  | jnull
  | jstr (s : String)
  | jnum (q : ℚ)
deriving DecidableEq, Repr

/-- One raw feed entry.  Each field is none when the key is absent from
the JSON object, otherwise it carries the JSON value (possibly null).
The real feed also carries an entry_id column, which the pipeline never
reads; it is omitted. -/
structure Entry where
  created_at : Option JVal
  field1 : Option JVal
  field2 : Option JVal
deriving DecidableEq, Repr

/-- One normalized row of the DataFrame returned by fetch_data:
the timestamp after the UTC-3 shift (none models NaT) and the two
coerced sensor readings (none models NaN). -/
structure Sample where
  timestamp : Option Int
  field1 : Option ℚ
  field2 : Option ℚ
deriving DecidableEq, Repr

/-- Which of the three except clauses of fetch_data fired: the
RequestException handler (line 36), the KeyError handler (line 39) or
the generic Exception handler (line 42).  The payload is the text that
the raised exception would print. -/
inductive ErrSignal
  | fetchErr (msg : String)
  | schemaErr (msg : String)
  | otherErr (msg : String)
deriving DecidableEq, Repr

/-- The user-visible st.error text produced for each signal, exactly the
f-strings of lines 37, 40 and 43.  A KeyError prints its key quoted. -/
def errText : ErrSignal → String
  | .fetchErr m => "Error fetching data from ThingSpeak: " ++ m
  | .schemaErr k => "Error processing ThingSpeak data: " ++ "'" ++ k ++ "'"
  | .otherErr m => "An unexpected error occurred: " ++ m

/-- Abstraction of the remote exchange: failure covers every
requests.exceptions.RequestException (DNS, timeout, reset, and the
HTTPError from raise_for_status on a non-2xx status); success carries
the parsed JSON body, reduced to its feeds member (none when the key
is missing). -/
inductive RemoteResponse
  | failure (msg : String)
  | success (feeds : Option (List Entry))

/-- The fixed display offset of line 17, timedelta(hours = -3), in
seconds. -/
def TZ_OFFSET : Int := -10800

instance exceptDecEq {e a : Type} [DecidableEq e] [DecidableEq a] :
    DecidableEq (Except e a)
  | .error x, .error y =>
    if h : x = y then .isTrue (by rw [h]) else .isFalse (by simp [h])
  | .error _, .ok _ => .isFalse (by simp)
  | .ok _, .error _ => .isFalse (by simp)
  | .ok x, .ok y =>
    if h : x = y then .isTrue (by rw [h]) else .isFalse (by simp [h])

/-! ### Calendar arithmetic (proleptic Gregorian, as used by pandas) -/

def digitVal (c : Char) : Nat := c.toNat - 48

def isLeap (y : Int) : Bool := y % 4 == 0 && (y % 100 != 0 || y % 400 == 0)

def daysInMonth (y : Int) (m : Nat) : Nat :=
  if m = 2 then (if isLeap y then 29 else 28)
  else if m = 4 ∨ m = 6 ∨ m = 9 ∨ m = 11 then 30
  else 31

/-- Days from 1970-01-01 to the given civil date (standard
days-from-civil computation, floor division throughout). -/
def daysFromCivil (y : Int) (m : Int) (d : Int) : Int :=
  let y := if m ≤ 2 then y - 1 else y
  let era := Int.fdiv y 400
  let yoe := y - era * 400
  let mp := if m > 2 then m - 3 else m + 9
  let doy := Int.fdiv (153 * mp + 2) 5 + d - 1
  let doe := yoe * 365 + Int.fdiv yoe 4 - Int.fdiv yoe 100 + doy
  era * 146097 + doe - 719468

/-- Seconds since the epoch of a civil date-time. -/
def civilTs (y m d h mi s : Int) : Int :=
  86400 * daysFromCivil y m d + 3600 * h + 60 * mi + s

/-- Parse a created_at string of the feed, an ISO-8601 UTC timestamp of
the shape YYYY-MM-DDTHH:MM:SSZ (the format ThingSpeak emits), with the
range validation pandas performs.  Anything else is a parse failure. -/
def parseISO (s : String) : Option Int :=
  match s.data with
  | [y1, y2, y3, y4, '-', m1, m2, '-', d1, d2, 'T',
     h1, h2, ':', n1, n2, ':', s1, s2, 'Z'] =>
    if ([y1, y2, y3, y4, m1, m2, d1, d2, h1, h2, n1, n2, s1, s2].all
        Char.isDigit) then
      let y : Nat := ((digitVal y1 * 10 + digitVal y2) * 10 + digitVal y3)
          * 10 + digitVal y4
      let mo : Nat := digitVal m1 * 10 + digitVal m2
      let d : Nat := digitVal d1 * 10 + digitVal d2
      let h : Nat := digitVal h1 * 10 + digitVal h2
      let mi : Nat := digitVal n1 * 10 + digitVal n2
      let sec : Nat := digitVal s1 * 10 + digitVal s2
      if 1 ≤ mo ∧ mo ≤ 12 ∧ 1 ≤ d ∧ d ≤ daysInMonth y mo ∧
         h ≤ 23 ∧ mi ≤ 59 ∧ sec ≤ 59 then
        some (civilTs y mo d h mi sec)
      else none
    else none
  | _ => none

/-! ### Numeric coercion (pd.to_numeric with coercing errors) -/

def natOfDigits (cs : List Char) : Nat :=
  cs.foldl (fun a c => a * 10 + digitVal c) 0

/-- Decimal literal without sign: digits with an optional dot, at least
one digit overall.  Exponents, inf and nan spellings are not produced
by the sensors and are left out of the model. -/
def parseRatCore (cs : List Char) : Option ℚ :=
  match cs.span (fun c => c != '.') with
  | (ip, []) =>
    if ip ≠ [] ∧ ip.all Char.isDigit then some (mkRat (natOfDigits ip) 1)
    else none
  | (ip, _ :: fp) =>
    if (ip ≠ [] ∨ fp ≠ []) ∧ ip.all Char.isDigit ∧ fp.all Char.isDigit then
      some (mkRat (natOfDigits ip * 10 ^ fp.length + natOfDigits fp)
        (10 ^ fp.length))
    else none

def parseRat (s : String) : Option ℚ :=
  match s.data with
  | '-' :: t => (parseRatCore t).map (fun q => -q)
  | '+' :: t => parseRatCore t
  | t => parseRatCore t

/-- pd.to_numeric on one cell with coercing errors: null and NaN map to
NaN, numbers pass through, strings parse if possible and otherwise
become NaN.  A malformed cell never raises. -/
def toNumeric : JVal → Option ℚ
  | .jnull => none
  | .jnum q => some q
  | .jstr s => parseRat s

/-- pd.to_datetime with utc on one cell (raising errors, the default of
line 27): null becomes NaT, a string must parse as an ISO timestamp or
the call raises ValueError, a bare number is taken as nanoseconds since
the epoch (whole seconds via floor division). -/
def toDatetimeUTC : JVal → Except String (Option Int)
  | .jnull => .ok none
  | .jstr s =>
    match parseISO s with
    | some t => .ok (some t)
    | none => .error ("ValueError: could not parse time data " ++ s)
  | .jnum q => .ok (some (Int.fdiv q.num (q.den * 1000000000)))

/-- Total companion of toDatetimeUTC, used to describe the values it
yields on inputs where it succeeds. -/
def tdT : JVal → Option Int
  | .jnull => none
  | .jstr s =>
    match parseISO s with
    | some t => some t
    | none => none
  | .jnum q => some (Int.fdiv q.num (q.den * 1000000000))

/-! ### DataFrame primitives -/

/-- Column extraction on a DataFrame built from a list of JSON objects:
the column exists when at least one row carries the key (missing cells
read as null, which the later conversions treat like NaN); otherwise
the subscript raises KeyError with the column name, as happens for the
empty feed list as well. -/
def getCol (proj : Entry → Option JVal) (name : String) (feeds : List Entry) :
    Except String (List JVal) :=
  if feeds.any (fun e => (proj e).isSome) then
    .ok (feeds.map (fun e => (proj e).getD .jnull))
  else .error name

/-- Effectful map over a column that stops at the first raising cell,
as the vectorized pandas conversion does. -/
def exMapM (f : JVal → Except String (Option Int)) :
    List JVal → Except String (List (Option Int))
  | [] => .ok []
  | x :: t =>
    match f x with
    | .error e => .error e
    | .ok b =>
      match exMapM f t with
      | .error e => .error e
      | .ok bs => .ok (b :: bs)

/-- Reassemble rows from the three converted columns (all three have the
length of the feed list). -/
def mkSamples : List (Option Int) → List (Option ℚ) → List (Option ℚ) →
    List Sample
  | t :: ts, x :: xs, y :: ys => ⟨t, x, y⟩ :: mkSamples ts xs ys
  | _, _, _ => []

/-- Comparison used by the ascending sort on the timestamp column: NaT
sorts after every timestamp (na_position last). -/
def ntLe : Option Int → Option Int → Bool
  | _, none => true
  | none, some _ => false
  | some a, some b => decide (a ≤ b)

/-- Row order of sort_values on the created_at column. -/
def sampLe (a b : Sample) : Prop := ntLe a.timestamp b.timestamp = true

instance : DecidableRel sampLe := fun a b =>
  inferInstanceAs (Decidable (ntLe a.timestamp b.timestamp = true))

/-- The per-row normalization that the column pipeline amounts to: parse
the timestamp as UTC, add the display offset, coerce both sensor
fields.  Every component of the row comes from the same feed entry. -/
def toSampleT (e : Entry) : Sample :=
  { timestamp := (tdT (e.created_at.getD .jnull)).map (fun t => t + TZ_OFFSET)
    field1 := toNumeric (e.field1.getD .jnull)
    field2 := toNumeric (e.field2.getD .jnull) }

/-- Lines 26-35 of fetch_data, for a response whose feeds array was
found: build the DataFrame, convert the created_at column (KeyError if
no row has the key, ValueError on a malformed cell), shift by the
display offset, coerce both sensor columns (KeyError likewise), and
sort ascending by timestamp. -/
def fetchFromFeeds (feeds : List Entry) : Except ErrSignal (List Sample) :=
  match getCol Entry.created_at "created_at" feeds with
  | .error k => .error (.schemaErr k)
  | .ok caCol =>
    match exMapM toDatetimeUTC caCol with
    | .error m => .error (.otherErr m)
    | .ok ts =>
      match getCol Entry.field1 "field1" feeds with
      | .error k => .error (.schemaErr k)
      | .ok f1c =>
        match getCol Entry.field2 "field2" feeds with
        | .error k => .error (.schemaErr k)
        | .ok f2c =>
          .ok (List.insertionSort sampLe
            (mkSamples (ts.map (Option.map (fun t => t + TZ_OFFSET)))
              (f1c.map toNumeric) (f2c.map toNumeric)))

/-- fetch_data (lines 19-44).  The result is the returned DataFrame as
a list of samples together with the st.error signal, if any exception
was caught: a RequestException reports through the handler of line 36
and returns an empty frame, a missing feeds key raises KeyError into
the handler of line 39, and the in-frame exceptions of lines 26-30
dispatch to the KeyError or generic handler by their type. -/
def fetch_data : RemoteResponse → List Sample × Option ErrSignal
  | .failure msg => ([], some (.fetchErr msg))
  | .success none => ([], some (.schemaErr "feeds"))
  | .success (some feeds) =>
    match fetchFromFeeds feeds with
    | .ok s => (s, none)
    | .error e => ([], some e)

/-! ### Analytics: the Home branch of main (lines 113-168)

The dashboard code runs unguarded pandas operations on the fetched
frame; each one that can raise is modelled as an Except value whose
error is the exception text.  Nothing after line 119 catches, so any
error aborts the page render. -/

/-- Python negative indexing: a negative position counts from the end
of the sequence. -/
def pyIndex (n : Nat) (i : Int) : Int := if i < 0 then i + n else i

/-- Series.iloc with Python negative indexing; out of bounds raises
IndexError. -/
def iloc {α : Type} (l : List α) (i : Int) : Except String α :=
  if h : 0 ≤ pyIndex l.length i ∧ pyIndex l.length i < l.length then
    .ok (l.get ⟨(pyIndex l.length i).toNat, by omega⟩)
  else .error "IndexError: single positional indexer is out-of-bounds"

/-- Float subtraction where NaN poisons the result. -/
def optSub : Option ℚ → Option ℚ → Option ℚ
  | some a, some b => some (a - b)
  | _, _ => none

/-- The metric widget of lines 123-125 (and 130-132 for sensor 2): the
current value is the literal last position of the column and the delta
subtracts the second-to-last position.  On a single row the second
read raises IndexError. -/
def metricBlock (f : List (Option ℚ)) : Except String (Option ℚ × Option ℚ) :=
  match iloc f (-1) with
  | .error m => .error m
  | .ok cur =>
    match iloc f (-2) with
    | .error m => .error m
    | .ok prev => .ok (cur, optSub cur prev)

/-- strftime on a timestamp; NaT does not support strftime and raises.
The rendered text only re-encodes the instant, so the model returns the
instant itself. -/
def strftimeTs : Option Int → Except String Int
  | some t => .ok t
  | none => .error "ValueError: NaTType does not support strftime"

/-- Lines 140-145: first and last timestamps of the whole frame and the
whole-day count between them (Timedelta days, i.e. floor division by
86400 seconds). -/
def rangeBlock (ts : List (Option Int)) : Except String (Int × Int × Int) :=
  match iloc ts 0 with
  | .error m => .error m
  | .ok ftRaw =>
    match iloc ts (-1) with
    | .error m => .error m
    | .ok ltRaw =>
      match strftimeTs ftRaw with
      | .error m => .error m
      | .ok ft =>
        match strftimeTs ltRaw with
        | .error m => .error m
        | .ok lt => .ok (ft, lt, Int.fdiv (lt - ft) 86400)

/-- Position and value of the first occurrence of the maximum of a
column, skipping NaN cells; none when every cell is NaN.  This is the
behaviour of Series.idxmax paired with Series.max. -/
def argmaxPair : List (Option ℚ) → Option (Nat × ℚ)
  | [] => none
  | none :: t => (argmaxPair t).map (fun p => (p.1 + 1, p.2))
  | some v :: t =>
    match argmaxPair t with
    | none => some (0, v)
    | some (j, m) => if v < m then some (j + 1, m) else some (0, v)

/-- First occurrence of the minimum, skipping NaN cells. -/
def argminPair : List (Option ℚ) → Option (Nat × ℚ)
  | [] => none
  | none :: t => (argminPair t).map (fun p => (p.1 + 1, p.2))
  | some v :: t =>
    match argminPair t with
    | none => some (0, v)
    | some (j, m) => if m < v then some (j + 1, m) else some (0, v)

/-- Series.idxmax: index label of the first maximal cell. -/
def idxmax (l : List (Option ℚ)) : Option Nat := (argmaxPair l).map Prod.fst

/-- Series.idxmin: index label of the first minimal cell. -/
def idxmin (l : List (Option ℚ)) : Option Nat := (argminPair l).map Prod.fst

/-- Series.max, skipping NaN; NaN (none) when all cells are NaN. -/
def colMax (l : List (Option ℚ)) : Option ℚ := (argmaxPair l).map Prod.snd

/-- Series.min, skipping NaN. -/
def colMin (l : List (Option ℚ)) : Option ℚ := (argminPair l).map Prod.snd

/-- df.loc lookup of the created_at cell at the label idxmax or idxmin
produced.  When the whole column was NaN there is no such label and the
lookup chain raises (msg names the failing reduction). -/
def locTs (msg : String) (ts : List (Option Int)) :
    Option Nat → Except String (Option Int)
  | none => .error msg
  | some i =>
    match ts.get? i with
    | some v => .ok v
    | none => .error "KeyError"

/-- What the extremes panel of lines 150-157 (and 159-166) shows for one
sensor: the two extreme values as computed on line 152-153 and the two
recording instants. -/
structure Extremes where
  maxVal : Option ℚ
  minVal : Option ℚ
  maxAt : Int
  minAt : Int
deriving DecidableEq, Repr

/-- Lines 152-157 for one field: max and min of the column, then the
created_at cells at idxmax and idxmin (raising when the column is all
NaN), then strftime on both instants (raising on NaT). -/
def extremesBlock (ts : List (Option Int)) (f : List (Option ℚ)) :
    Except String Extremes :=
  let mx := colMax f
  let mn := colMin f
  match locTs "ValueError: attempt to get argmax of an empty sequence" ts
      (idxmax f) with
  | .error m => .error m
  | .ok mxRaw =>
    match locTs "ValueError: attempt to get argmin of an empty sequence" ts
        (idxmin f) with
    | .error m => .error m
    | .ok mnRaw =>
      match strftimeTs mxRaw with
      | .error m => .error m
      | .ok mxT =>
        match strftimeTs mnRaw with
        | .error m => .error m
        | .ok mnT => .ok ⟨mx, mn, mxT, mnT⟩

/-- Everything the Home page renders when data is present. -/
structure DashboardData where
  temp1 : Option ℚ
  delta1 : Option ℚ
  temp2 : Option ℚ
  delta2 : Option ℚ
  firstTs : Int
  lastTs : Int
  daysPassed : Int
  ex1 : Extremes
  ex2 : Extremes
deriving DecidableEq, Repr

/-- The Home page outcome: the no-data notice of line 168, or the full
dashboard. -/
inductive HomeView
  | noData
  | dashboard (d : DashboardData)
deriving DecidableEq, Repr

/-- The Home branch of main on the fetched frame (lines 119-168), in
source order: the two metric columns, the data range panel, then the
extremes of sensor 1 and sensor 2.  Any pandas exception escapes main,
so the first raising step aborts the render. -/
def homeView (series : List Sample) : Except String HomeView :=
  if series = [] then .ok .noData
  else
    match metricBlock (series.map Sample.field1) with
    | .error m => .error m
    | .ok m1 =>
      match metricBlock (series.map Sample.field2) with
      | .error m => .error m
      | .ok m2 =>
        match rangeBlock (series.map Sample.timestamp) with
        | .error m => .error m
        | .ok r =>
          match extremesBlock (series.map Sample.timestamp)
              (series.map Sample.field1) with
          | .error m => .error m
          | .ok e1 =>
            match extremesBlock (series.map Sample.timestamp)
                (series.map Sample.field2) with
            | .error m => .error m
            | .ok e2 =>
              .ok (.dashboard
                ⟨m1.1, m1.2, m2.1, m2.2, r.1, r.2.1, r.2.2, e1, e2⟩)

/-! ### Helper lemmas -/

lemma tdT_ok {x : JVal} {b : Option Int} (h : toDatetimeUTC x = .ok b) :
    tdT x = b := by
  cases x with
  | jnull => simpa [toDatetimeUTC, tdT] using h
  | jnum q => simpa [toDatetimeUTC, tdT] using h
  | jstr s =>
    simp only [toDatetimeUTC] at h
    simp only [tdT]
    cases hp : parseISO s with
    | none => rw [hp] at h; cases h
    | some t => rw [hp] at h; cases h; rfl

/-- A Boolean success test for the datetime conversion. -/
def dtOk (x : JVal) : Bool :=
  match toDatetimeUTC x with
  | .ok _ => true
  | .error _ => false

lemma exMapM_ok_eq : ∀ {l : List JVal} {ys},
    exMapM toDatetimeUTC l = .ok ys → ys = l.map tdT := by
  intro l
  induction l with
  | nil =>
    intro ys h
    simp only [exMapM] at h
    cases h
    rfl
  | cons x t ih =>
    intro ys h
    unfold exMapM at h
    cases hx : toDatetimeUTC x with
    | error e => rw [hx] at h; cases h
    | ok b =>
      rw [hx] at h
      cases ht : exMapM toDatetimeUTC t with
      | error e => rw [ht] at h; cases h
      | ok bs =>
        rw [ht] at h
        cases h
        simp [List.map, ih ht, tdT_ok hx]

lemma exMapM_ok_of : ∀ {l : List JVal},
    (∀ x ∈ l, dtOk x = true) → exMapM toDatetimeUTC l = .ok (l.map tdT) := by
  intro l
  induction l with
  | nil => intro _; rfl
  | cons x t ih =>
    intro h
    have hx := h x (by simp)
    unfold dtOk at hx
    cases hx2 : toDatetimeUTC x with
    | error e => rw [hx2] at hx; cases hx
    | ok b =>
      unfold exMapM
      rw [hx2, ih (fun y hy => h y (by simp [hy]))]
      simp [tdT_ok hx2]

lemma mkSamples_map {α : Type} (f : α → Option Int) (g h : α → Option ℚ) :
    ∀ l : List α, mkSamples (l.map f) (l.map g) (l.map h) =
      l.map (fun e => ⟨f e, g e, h e⟩) := by
  intro l
  induction l with
  | nil => rfl
  | cons x t ih => simp [List.map, mkSamples, ih]

/-- The three converted columns, reassembled into rows, are exactly the
per-entry normalization mapped over the feed. -/
lemma fetch_columns (feeds : List Entry) :
    mkSamples
      (feeds.map (fun e =>
        Option.map (fun t => t + TZ_OFFSET) (tdT (e.created_at.getD .jnull))))
      (feeds.map (fun e => toNumeric (e.field1.getD .jnull)))
      (feeds.map (fun e => toNumeric (e.field2.getD .jnull)))
    = feeds.map toSampleT :=
  mkSamples_map _ _ _ feeds

lemma getCol_ok {p : Entry → Option JVal} {n : String} {feeds : List Entry}
    {c : List JVal} (h : getCol p n feeds = .ok c) :
    c = feeds.map (fun e => (p e).getD .jnull) := by
  unfold getCol at h
  split at h
  · cases h; rfl
  · cases h

/-- Success analysis of the in-frame pipeline: whenever it returns a
frame, that frame is the per-entry normalization of the feed, sorted by
the timestamp order. -/
lemma fetchFromFeeds_ok {feeds : List Entry} {series : List Sample}
    (h : fetchFromFeeds feeds = .ok series) :
    series = List.insertionSort sampLe (feeds.map toSampleT) := by
  unfold fetchFromFeeds at h
  split at h
  · simp at h
  rename_i caCol h1
  split at h
  · simp at h
  rename_i ts h2
  split at h
  · simp at h
  rename_i f1c h3
  split at h
  · simp at h
  rename_i f2c h4
  cases h
  rw [getCol_ok h1] at h2
  rw [exMapM_ok_eq h2, getCol_ok h3, getCol_ok h4]
  simp only [List.map_map]
  exact congrArg (List.insertionSort sampLe) (fetch_columns feeds)

/-- Converse direction: when every column is present and every
timestamp cell converts, the pipeline succeeds and returns the sorted
normalized rows. -/
lemma fetchFromFeeds_ok_of {feeds : List Entry}
    (h1 : feeds.any (fun e => e.created_at.isSome) = true)
    (h2 : ∀ e ∈ feeds, dtOk (e.created_at.getD .jnull) = true)
    (h3 : feeds.any (fun e => e.field1.isSome) = true)
    (h4 : feeds.any (fun e => e.field2.isSome) = true) :
    fetchFromFeeds feeds =
      .ok (List.insertionSort sampLe (feeds.map toSampleT)) := by
  unfold fetchFromFeeds getCol
  rw [if_pos h1, if_pos h3, if_pos h4]
  dsimp only
  rw [exMapM_ok_of (by
    intro x hx
    obtain ⟨e, he, rfl⟩ := List.mem_map.mp hx
    exact h2 e he)]
  simp only [List.map_map]
  exact congrArg (fun l => Except.ok (List.insertionSort sampLe l))
    (fetch_columns feeds)

instance : IsTotal Sample sampLe := ⟨by
  intro a b
  unfold sampLe
  cases a.timestamp <;> cases b.timestamp <;> simp [ntLe] <;> omega⟩

instance : IsTrans Sample sampLe := ⟨by
  intro a b c hab hbc
  unfold sampLe at *
  cases ha : a.timestamp <;> cases hb : b.timestamp <;> cases hc : c.timestamp <;>
    rw [ha, hb] at hab <;> rw [hb, hc] at hbc <;> simp_all [ntLe] <;> omega⟩

/-- A clean fetch result can only come from a response that had a feeds
array, and then it is the in-frame pipeline result. -/
lemma fetch_data_ok_inv {resp : RemoteResponse} {series : List Sample}
    (h : fetch_data resp = (series, none)) :
    ∃ feeds, resp = .success (some feeds) ∧ fetchFromFeeds feeds = .ok series := by
  cases resp with
  | failure m => simp [fetch_data] at h
  | success b =>
    cases b with
    | none => simp [fetch_data] at h
    | some feeds =>
      refine ⟨feeds, rfl, ?_⟩
      simp only [fetch_data] at h
      split at h
      · rename_i s hf
        cases h
        exact hf
      · simp at h

lemma iloc_neg_one {α : Type} (l : List α) (h : l ≠ []) :
    iloc l (-1) = .ok (l.getLast h) := by
  have hl : 0 < l.length := List.length_pos.mpr h
  unfold iloc
  split
  · rename_i hc
    rw [List.getLast_eq_get]
    exact congrArg (fun p => Except.ok (l.get p))
      (Fin.ext (by simp [pyIndex]; omega))
  · rename_i hc
    exfalso
    apply hc
    simp only [pyIndex, if_pos (show (-1 : Int) < 0 by norm_num)]
    omega

lemma iloc_zero {α : Type} (l : List α) (h : 0 < l.length) :
    iloc l 0 = .ok (l.get ⟨0, h⟩) := by
  unfold iloc
  split
  · rename_i hc
    exact congrArg (fun p => Except.ok (l.get p))
      (Fin.ext (by simp [pyIndex]))
  · rename_i hc
    exfalso
    apply hc
    simp only [pyIndex, if_neg (show ¬ (0 : Int) < 0 by norm_num)]
    omega

lemma iloc_ok_bounds {α : Type} {l : List α} {i : Int}
    (h : 0 ≤ pyIndex l.length i ∧ pyIndex l.length i < l.length) :
    iloc l i = .ok (l.get ⟨(pyIndex l.length i).toNat, by omega⟩) := by
  unfold iloc
  rw [dif_pos h]

lemma iloc_err {α : Type} {l : List α} {i : Int}
    (h : ¬ (0 ≤ pyIndex l.length i ∧ pyIndex l.length i < l.length)) :
    iloc l i = .error "IndexError: single positional indexer is out-of-bounds" := by
  unfold iloc
  rw [dif_neg h]

lemma argmaxPair_none {l : List (Option ℚ)} (h : argmaxPair l = none) :
    ∀ j v, l.get? j = some (some v) → False := by
  induction l with
  | nil => intro j v hj; simp at hj
  | cons x t ih =>
    intro j v hj
    cases x with
    | none =>
      have ht : argmaxPair t = none := by
        simpa [argmaxPair] using h
      cases j with
      | zero => simp at hj
      | succ k => exact ih ht k v (by simpa using hj)
    | some w =>
      simp only [argmaxPair] at h
      cases ht : argmaxPair t with
      | none => rw [ht] at h; cases h
      | some p =>
        obtain ⟨j0, m0⟩ := p
        rw [ht] at h
        dsimp only at h
        split at h
        · cases h
        · cases h

lemma argmaxPair_spec {l : List (Option ℚ)} :
    ∀ {i : Nat} {m : ℚ}, argmaxPair l = some (i, m) →
      l.get? i = some (some m) ∧
      (∀ j v, l.get? j = some (some v) → v ≤ m) ∧
      (∀ j, j < i → ∀ v, l.get? j = some (some v) → v < m) := by
  induction l with
  | nil => intro i m h; cases h
  | cons x t ih =>
    intro i m h
    cases x with
    | none =>
      simp only [argmaxPair] at h
      cases ht : argmaxPair t with
      | none => rw [ht] at h; cases h
      | some p =>
        obtain ⟨j0, m0⟩ := p
        rw [ht] at h
        simp only [Option.map_some', Option.some.injEq, Prod.mk.injEq] at h
        obtain ⟨hi, hm⟩ := h
        subst hi
        subst hm
        obtain ⟨g1, g2, g3⟩ := ih ht
        refine ⟨by simpa using g1, ?_, ?_⟩
        · intro j v hj
          cases j with
          | zero => simp at hj
          | succ k => exact g2 k v (by simpa using hj)
        · intro j hj v hjv
          cases j with
          | zero => simp at hjv
          | succ k => exact g3 k (by omega) v (by simpa using hjv)
    | some w =>
      simp only [argmaxPair] at h
      cases ht : argmaxPair t with
      | none =>
        rw [ht] at h
        simp only [Option.some.injEq, Prod.mk.injEq] at h
        obtain ⟨hi, hm⟩ := h
        subst hi
        subst hm
        refine ⟨by simp, ?_, ?_⟩
        · intro j v hj
          cases j with
          | zero => simp at hj; linarith
          | succ k => exact absurd (argmaxPair_none ht k v (by simpa using hj)) id
        · intro j hj
          omega
      | some p =>
        obtain ⟨j0, m0⟩ := p
        rw [ht] at h
        dsimp only at h
        obtain ⟨g1, g2, g3⟩ := ih ht
        by_cases hc : w < m0
        · rw [if_pos hc] at h
          simp only [Option.some.injEq, Prod.mk.injEq] at h
          obtain ⟨hi, hm⟩ := h
          subst hi
          subst hm
          refine ⟨by simpa using g1, ?_, ?_⟩
          · intro j v hj
            cases j with
            | zero =>
              simp at hj
              linarith
            | succ k => exact g2 k v (by simpa using hj)
          · intro j hj v hjv
            cases j with
            | zero =>
              simp at hjv
              linarith
            | succ k => exact g3 k (by omega) v (by simpa using hjv)
        · rw [if_neg hc] at h
          simp only [Option.some.injEq, Prod.mk.injEq] at h
          obtain ⟨hi, hm⟩ := h
          subst hi
          subst hm
          push_neg at hc
          refine ⟨by simp, ?_, ?_⟩
          · intro j v hj
            cases j with
            | zero => simp at hj; linarith
            | succ k =>
              have := g2 k v (by simpa using hj)
              linarith
          · intro j hj
            omega

lemma argminPair_none {l : List (Option ℚ)} (h : argminPair l = none) :
    ∀ j v, l.get? j = some (some v) → False := by
  induction l with
  | nil => intro j v hj; simp at hj
  | cons x t ih =>
    intro j v hj
    cases x with
    | none =>
      have ht : argminPair t = none := by
        simpa [argminPair] using h
      cases j with
      | zero => simp at hj
      | succ k => exact ih ht k v (by simpa using hj)
    | some w =>
      simp only [argminPair] at h
      cases ht : argminPair t with
      | none => rw [ht] at h; cases h
      | some p =>
        obtain ⟨j0, m0⟩ := p
        rw [ht] at h
        dsimp only at h
        split at h
        · cases h
        · cases h

lemma argminPair_spec {l : List (Option ℚ)} :
    ∀ {i : Nat} {m : ℚ}, argminPair l = some (i, m) →
      l.get? i = some (some m) ∧
      (∀ j v, l.get? j = some (some v) → m ≤ v) ∧
      (∀ j, j < i → ∀ v, l.get? j = some (some v) → m < v) := by
  induction l with
  | nil => intro i m h; cases h
  | cons x t ih =>
    intro i m h
    cases x with
    | none =>
      simp only [argminPair] at h
      cases ht : argminPair t with
      | none => rw [ht] at h; cases h
      | some p =>
        obtain ⟨j0, m0⟩ := p
        rw [ht] at h
        simp only [Option.map_some', Option.some.injEq, Prod.mk.injEq] at h
        obtain ⟨hi, hm⟩ := h
        subst hi
        subst hm
        obtain ⟨g1, g2, g3⟩ := ih ht
        refine ⟨by simpa using g1, ?_, ?_⟩
        · intro j v hj
          cases j with
          | zero => simp at hj
          | succ k => exact g2 k v (by simpa using hj)
        · intro j hj v hjv
          cases j with
          | zero => simp at hjv
          | succ k => exact g3 k (by omega) v (by simpa using hjv)
    | some w =>
      simp only [argminPair] at h
      cases ht : argminPair t with
      | none =>
        rw [ht] at h
        simp only [Option.some.injEq, Prod.mk.injEq] at h
        obtain ⟨hi, hm⟩ := h
        subst hi
        subst hm
        refine ⟨by simp, ?_, ?_⟩
        · intro j v hj
          cases j with
          | zero => simp at hj; linarith
          | succ k => exact absurd (argminPair_none ht k v (by simpa using hj)) id
        · intro j hj
          omega
      | some p =>
        obtain ⟨j0, m0⟩ := p
        rw [ht] at h
        dsimp only at h
        obtain ⟨g1, g2, g3⟩ := ih ht
        by_cases hc : m0 < w
        · rw [if_pos hc] at h
          simp only [Option.some.injEq, Prod.mk.injEq] at h
          obtain ⟨hi, hm⟩ := h
          subst hi
          subst hm
          refine ⟨by simpa using g1, ?_, ?_⟩
          · intro j v hj
            cases j with
            | zero =>
              simp at hj
              linarith
            | succ k => exact g2 k v (by simpa using hj)
          · intro j hj v hjv
            cases j with
            | zero =>
              simp at hjv
              linarith
            | succ k => exact g3 k (by omega) v (by simpa using hjv)
        · rw [if_neg hc] at h
          simp only [Option.some.injEq, Prod.mk.injEq] at h
          obtain ⟨hi, hm⟩ := h
          subst hi
          subst hm
          push_neg at hc
          refine ⟨by simp, ?_, ?_⟩
          · intro j v hj
            cases j with
            | zero => simp at hj; linarith
            | succ k =>
              have := g2 k v (by simpa using hj)
              linarith
          · intro j hj
            omega

lemma strftimeTs_ok {x : Option Int} {t : Int} (h : strftimeTs x = .ok t) :
    x = some t := by
  cases x with
  | none => cases h
  | some a => simpa [strftimeTs] using h

lemma iloc_zero_inv {α : Type} {l : List α} {v : α} (h : iloc l 0 = .ok v) :
    l.get? 0 = some v ∧ 0 < l.length := by
  unfold iloc at h
  split at h
  · rename_i hc
    cases h
    have hlen : 0 < l.length := by
      simp only [pyIndex, if_neg (show ¬ (0 : Int) < 0 by norm_num)] at hc
      omega
    refine ⟨?_, hlen⟩
    rw [List.get?_eq_get hlen]
    exact congrArg (fun p => some (l.get p)) (Fin.ext (by simp [pyIndex]))
  · cases h

lemma iloc_neg_one_inv {α : Type} {l : List α} {v : α}
    (h : iloc l (-1) = .ok v) :
    l.get? (l.length - 1) = some v ∧ 0 < l.length := by
  unfold iloc at h
  split at h
  · rename_i hc
    cases h
    have hlen : 0 < l.length := by
      simp only [pyIndex, if_pos (show (-1 : Int) < 0 by norm_num)] at hc
      omega
    refine ⟨?_, hlen⟩
    rw [List.get?_eq_get (by omega : l.length - 1 < l.length)]
    refine congrArg (fun p => some (l.get p)) (Fin.ext ?_)
    simp only [pyIndex, if_pos (show (-1 : Int) < 0 by norm_num)]
    omega
  · cases h

/-! ### The claims -/

/-- C1: for every endpoint configuration and remote response, fetch_data
never raises to its caller on a recoverable condition: any transport
failure or non-2xx status comes back as an empty Series with the Fetch
Failure signal of line 37, a response whose JSON lacks the feeds array
comes back as an empty Series with the KeyError signal of line 40, and
the two signals are distinguishable, both as handler tags and as the
rendered st.error texts. -/
theorem c1_fetch_and_schema_failures_return_empty :
    (∀ msg, fetch_data (.failure msg) = ([], some (.fetchErr msg)))
    ∧ fetch_data (.success none) = ([], some (.schemaErr "feeds"))
    ∧ (∀ m k, ErrSignal.fetchErr m ≠ ErrSignal.schemaErr k)
    ∧ (∀ m k, errText (.fetchErr m) ≠ errText (.schemaErr k)) := by
  refine ⟨fun msg => rfl, rfl, fun m k h => ErrSignal.noConfusion h,
    fun m k h => ?_⟩
  have hlen : ("Error processing ThingSpeak data: ".data).length = 34 := by decide
  have h6 := congrArg (fun s : String => s.data.get? 6) h
  simp only [errText, String.data_append] at h6
  rw [@List.get?_append _ ("Error fetching data from ThingSpeak: ".data)
      m.data 6 (by decide)] at h6
  rw [@List.get?_append _
      (("Error processing ThingSpeak data: ".data ++ "'".data) ++ k.data)
      ("'".data) 6
      (by simp only [List.length_append, hlen]; omega)] at h6
  rw [@List.get?_append _ ("Error processing ThingSpeak data: ".data ++ "'".data)
      k.data 6 (by decide)] at h6
  rw [@List.get?_append _ ("Error processing ThingSpeak data: ".data)
      ("'".data) 6 (by decide)] at h6
  exact absurd h6 (by decide)

theorem c1_fetch_and_schema_failures_return_empty_witness :
    fetch_data (.failure "timeout") = ([], some (.fetchErr "timeout")) ∧
    fetch_data (.success none) = ([], some (.schemaErr "feeds")) :=
  ⟨c1_fetch_and_schema_failures_return_empty.1 "timeout",
   c1_fetch_and_schema_failures_return_empty.2.1⟩

/-- C2: every Series a clean fetch returns is sorted non-decreasing by
timestamp at all adjacent positions, whatever order the raw feed
arrived in; the sort is performed inside fetch_data (line 33), not
assumed of the remote feed. -/
theorem c2_series_sorted (resp : RemoteResponse) (series : List Sample)
    (h : fetch_data resp = (series, none)) :
    ∀ (i : Nat) (hi : i + 1 < series.length),
      ntLe (series.get ⟨i, Nat.lt_of_succ_lt hi⟩).timestamp
        (series.get ⟨i + 1, hi⟩).timestamp = true := by
  obtain ⟨feeds, hresp, hok⟩ := fetch_data_ok_inv h
  have hs := fetchFromFeeds_ok hok
  subst hs
  intro i hi
  have hsorted := List.sorted_insertionSort sampLe (feeds.map toSampleT)
  exact List.pairwise_iff_get.mp hsorted ⟨i, Nat.lt_of_succ_lt hi⟩ ⟨i + 1, hi⟩
    (Fin.mk_lt_mk.mpr (Nat.lt_succ_self i))

theorem c2_series_sorted_witness :
    ntLe (((fetch_data (.success (some [
        ⟨some (.jnum 3000000000), some (.jstr "1"), some .jnull⟩,
        ⟨some (.jnum 1000000000), some (.jstr "2"), some .jnull⟩,
        ⟨some (.jnum 2000000000), some (.jstr "3"), some .jnull⟩]))).1.get
          ⟨0, by decide⟩).timestamp)
      (((fetch_data (.success (some [
        ⟨some (.jnum 3000000000), some (.jstr "1"), some .jnull⟩,
        ⟨some (.jnum 1000000000), some (.jstr "2"), some .jnull⟩,
        ⟨some (.jnum 2000000000), some (.jstr "3"), some .jnull⟩]))).1.get
          ⟨1, by decide⟩).timestamp) = true :=
  c2_series_sorted (.success (some [
      ⟨some (.jnum 3000000000), some (.jstr "1"), some .jnull⟩,
      ⟨some (.jnum 1000000000), some (.jstr "2"), some .jnull⟩,
      ⟨some (.jnum 2000000000), some (.jstr "3"), some .jnull⟩])) _
    (by decide) 0 (by decide)

/-- C10: a clean fetch returns exactly one Sample per feed entry (none
dropped, none deduplicated, none invented, all-null rows and duplicate
timestamps included), and the returned rows are exactly the per-entry
normalizations of the entries, reordered only by the sort. -/
theorem c10_one_sample_per_entry (feeds : List Entry) (series : List Sample)
    (h : fetch_data (.success (some feeds)) = (series, none)) :
    series.length = feeds.length ∧ series.Perm (feeds.map toSampleT) := by
  obtain ⟨feeds2, hresp, hok⟩ := fetch_data_ok_inv h
  injection hresp with hresp1
  injection hresp1 with hresp2
  subst hresp2
  have hs := fetchFromFeeds_ok hok
  subst hs
  have hperm := List.perm_insertionSort sampLe (feeds.map toSampleT)
  exact ⟨by simpa using hperm.length_eq, hperm⟩

theorem c10_one_sample_per_entry_witness :
    ([⟨some (-10799), some 3, none⟩, ⟨some (-10798), none, none⟩,
      ⟨some (-10798), some (mkRat 3 2), none⟩] : List Sample).length =
      ([⟨some (.jnum 2000000000), some .jnull, some .jnull⟩,
        ⟨some (.jnum 2000000000), some (.jstr "1.5"), some (.jstr "x")⟩,
        ⟨some (.jnum 1000000000), some (.jstr "3"), some .jnull⟩] :
        List Entry).length
    ∧ ([⟨some (-10799), some 3, none⟩, ⟨some (-10798), none, none⟩,
        ⟨some (-10798), some (mkRat 3 2), none⟩] : List Sample).Perm
        (([⟨some (.jnum 2000000000), some .jnull, some .jnull⟩,
          ⟨some (.jnum 2000000000), some (.jstr "1.5"), some (.jstr "x")⟩,
          ⟨some (.jnum 1000000000), some (.jstr "3"), some .jnull⟩] :
          List Entry).map toSampleT) :=
  c10_one_sample_per_entry _ _ (by decide)

/-- C8: every sample of a successful fetch carries the timestamp of its
own feed entry, parsed as UTC and shifted by the fixed minus-three-hour
offset; in particular the two-entry feed of the spec example lands on
2023-12-31T21:00:00 and 2024-01-01T21:00:00 local time with the spec
field values. -/
theorem c8_utc_parse_plus_offset :
    (∀ (feeds : List Entry) (series : List Sample),
        fetchFromFeeds feeds = .ok series → ∀ smp ∈ series, ∃ e ∈ feeds,
          smp = toSampleT e ∧
          smp.timestamp = (tdT (e.created_at.getD .jnull)).map
            (fun t => t + TZ_OFFSET))
    ∧ fetch_data (.success (some [
        ⟨some (.jstr "2024-01-01T00:00:00Z"), some (.jstr "20.0"),
          some (.jstr "21.0")⟩,
        ⟨some (.jstr "2024-01-02T00:00:00Z"), some (.jstr "22.5"),
          some .jnull⟩])) =
      ([⟨some (civilTs 2023 12 31 21 0 0), some 20, some 21⟩,
        ⟨some (civilTs 2024 1 1 21 0 0), some (mkRat 45 2), none⟩], none) := by
  constructor
  · intro feeds series hok smp hmem
    rw [fetchFromFeeds_ok hok] at hmem
    have hmem2 : smp ∈ feeds.map toSampleT :=
      (List.perm_insertionSort sampLe (feeds.map toSampleT)).mem_iff.mp hmem
    obtain ⟨e, he, hse⟩ := List.mem_map.mp hmem2
    subst hse
    exact ⟨e, he, rfl, rfl⟩
  · decide

theorem c8_utc_parse_plus_offset_witness :
    ∃ e ∈ ([⟨some (.jstr "2024-01-01T00:00:00Z"), some (.jstr "20.0"),
          some (.jstr "21.0")⟩,
        ⟨some (.jstr "2024-01-02T00:00:00Z"), some (.jstr "22.5"),
          some .jnull⟩] : List Entry),
      (⟨some (civilTs 2024 1 1 21 0 0), some (mkRat 45 2), none⟩ : Sample) =
        toSampleT e ∧
      (⟨some (civilTs 2024 1 1 21 0 0), some (mkRat 45 2), none⟩ :
        Sample).timestamp =
        (tdT (e.created_at.getD .jnull)).map (fun t => t + TZ_OFFSET) :=
  c8_utc_parse_plus_offset.1 _
    [⟨some (civilTs 2023 12 31 21 0 0), some 20, some 21⟩,
     ⟨some (civilTs 2024 1 1 21 0 0), some (mkRat 45 2), none⟩]
    (by decide) _ (by decide)

/-- C3, counterexample: a feed whose single entry lacks the field1 key
altogether makes the DataFrame subscript of line 29 raise KeyError, so
fetch_data aborts with an empty Series and the schema-failure signal
instead of returning one Sample with a null sensor1. -/
theorem c3_missing_column_aborts :
    fetch_data (.success (some [⟨some (.jnum 0), none, some (.jstr "1.0")⟩])) =
      ([], some (.schemaErr "field1")) := by decide

/-- C3, amended: provided each column is present in at least one entry
and every created_at cell converts, a malformed or null sensor cell
never aborts the fetch: the pipeline succeeds, each Sample is computed
from its own entry alone, and a failing sensor cell nulls exactly that
field of that Sample, leaving the timestamp and the other field as
their own conversions dictate. -/
theorem c3_amended_null_tolerance (feeds : List Entry)
    (h1 : feeds.any (fun e => e.created_at.isSome) = true)
    (h2 : ∀ e ∈ feeds, dtOk (e.created_at.getD .jnull) = true)
    (h3 : feeds.any (fun e => e.field1.isSome) = true)
    (h4 : feeds.any (fun e => e.field2.isSome) = true) :
    fetch_data (.success (some feeds)) =
      (List.insertionSort sampLe (feeds.map toSampleT), none)
    ∧ ∀ e ∈ feeds, toNumeric (e.field1.getD .jnull) = none →
        (toSampleT e).field1 = none ∧
        (toSampleT e).field2 = toNumeric (e.field2.getD .jnull) ∧
        (toSampleT e).timestamp = (tdT (e.created_at.getD .jnull)).map
          (fun t => t + TZ_OFFSET) := by
  constructor
  · simp only [fetch_data]
    rw [fetchFromFeeds_ok_of h1 h2 h3 h4]
  · intro e he hnull
    exact ⟨hnull, rfl, rfl⟩

theorem c3_amended_null_tolerance_witness :
    fetch_data (.success (some [
      ⟨some (.jnum 0), some (.jstr "bad"), some (.jstr "7.5")⟩,
      ⟨some (.jnum 86400000000000), some (.jstr "8"), some .jnull⟩])) =
      (List.insertionSort sampLe (([
        ⟨some (.jnum 0), some (.jstr "bad"), some (.jstr "7.5")⟩,
        ⟨some (.jnum 86400000000000), some (.jstr "8"), some .jnull⟩] :
        List Entry).map toSampleT), none) :=
  (c3_amended_null_tolerance _ (by decide) (by decide) (by decide)
    (by decide)).1

/-- C4, code_bug evidence: on a Series of exactly one sample the Home
page raises IndexError at the delta computation of line 125 (iloc -2
on a length-1 column) instead of showing a defined latest value with an
undefined previousDelta. -/
theorem c4_single_sample_delta_raises (s : List Sample) (h : s.length = 1) :
    homeView s =
      .error "IndexError: single positional indexer is out-of-bounds" := by
  cases s with
  | nil => simp at h
  | cons a t =>
    cases t with
    | nil => rfl
    | cons b t2 =>
      simp only [List.length_cons] at h
      omega

theorem c4_single_sample_delta_raises_witness :
    homeView [⟨some 0, some 20, some 21⟩] =
      .error "IndexError: single positional indexer is out-of-bounds" :=
  c4_single_sample_delta_raises _ rfl

/-- C5, code_bug evidence: on a non-empty Series whose field1 column is
all null the Home page raises at line 154 (idxmax of an all-NaN column
has no label for the loc lookup) instead of completing with that field
undefined; the concrete two-row series below reaches exactly that
failure. -/
theorem c5_all_null_field_raises :
    homeView [⟨some 0, none, some 5⟩, ⟨some 10, none, some 6⟩] =
      .error "ValueError: attempt to get argmax of an empty sequence" := by
  decide

/-- C6: the extremes of a column are computed by a NaN-skipping linear
scan and ties go to the first occurrence in sort order: whenever idxmax
and max (and idxmin and min) are defined, the position holds the
extreme value, every non-null cell is bounded by it, every earlier
position is strictly beaten, and the extremes panel reports the
created_at cell at exactly that first position. -/
theorem c6_extremes_first_occurrence (vals : List (Option ℚ))
    (ts : List (Option Int)) (i j : Nat) (m n : ℚ)
    (hmax : idxmax vals = some i) (hM : colMax vals = some m)
    (hmin : idxmin vals = some j) (hm : colMin vals = some n) :
    (vals.get? i = some (some m) ∧
      (∀ k v, vals.get? k = some (some v) → v ≤ m) ∧
      (∀ k, k < i → ∀ v, vals.get? k = some (some v) → v < m))
    ∧ (vals.get? j = some (some n) ∧
      (∀ k v, vals.get? k = some (some v) → n ≤ v) ∧
      (∀ k, k < j → ∀ v, vals.get? k = some (some v) → n < v))
    ∧ (∀ o, extremesBlock ts vals = .ok o →
        o.maxVal = some m ∧ o.minVal = some n ∧
        ts.get? i = some (some o.maxAt) ∧ ts.get? j = some (some o.minAt)) := by
  have hax : argmaxPair vals = some (i, m) := by
    cases hp : argmaxPair vals with
    | none => simp [idxmax, hp] at hmax
    | some p =>
      obtain ⟨i0, m0⟩ := p
      simp only [idxmax, colMax, hp, Option.map_some', Option.some.injEq]
        at hmax hM
      rw [hmax, hM]
  have hin : argminPair vals = some (j, n) := by
    cases hp : argminPair vals with
    | none => simp [idxmin, hp] at hmin
    | some p =>
      obtain ⟨j0, n0⟩ := p
      simp only [idxmin, colMin, hp, Option.map_some', Option.some.injEq]
        at hmin hm
      rw [hmin, hm]
  obtain ⟨a1, a2, a3⟩ := argmaxPair_spec hax
  obtain ⟨b1, b2, b3⟩ := argminPair_spec hin
  refine ⟨⟨a1, a2, a3⟩, ⟨b1, b2, b3⟩, ?_⟩
  intro o ho
  unfold extremesBlock at ho
  rw [hmax, hmin] at ho
  simp only [locTs] at ho
  cases hti : ts.get? i with
  | none => rw [hti] at ho; simp at ho
  | some tv =>
    rw [hti] at ho
    dsimp only at ho
    cases htj : ts.get? j with
    | none => rw [htj] at ho; simp at ho
    | some tw =>
      rw [htj] at ho
      dsimp only at ho
      split at ho
      · simp at ho
      rename_i mxT hmx
      split at ho
      · simp at ho
      rename_i mnT hmn
      simp only [Except.ok.injEq] at ho
      subst ho
      have h5 := strftimeTs_ok hmx
      have h6 := strftimeTs_ok hmn
      subst h5
      subst h6
      exact ⟨hM, hm, rfl, rfl⟩

theorem c6_extremes_first_occurrence_witness :
    (Extremes.mk (some 9) (some 5) 2 1).maxVal = some (9 : ℚ) ∧
    (Extremes.mk (some 9) (some 5) 2 1).minVal = some (5 : ℚ) ∧
    ([some 1, some 2, some 3] : List (Option Int)).get? 1 =
      some (some (Extremes.mk (some (9 : ℚ)) (some 5) 2 1).maxAt) ∧
    ([some 1, some 2, some 3] : List (Option Int)).get? 0 =
      some (some (Extremes.mk (some (9 : ℚ)) (some 5) 2 1).minAt) :=
  (c6_extremes_first_occurrence [some 5, some 9, some 9]
    [some 1, some 2, some 3] 1 0 9 5
    (by decide) (by decide) (by decide) (by decide)).2.2
    (Extremes.mk (some 9) (some 5) 2 1) (by decide)

/-- C7: the current reading shown for a field is the literal last array
position of the column, null or not (no backward search), and when that
last position is null both the shown value and the delta surface as
NaN. -/
theorem c7_latest_literal_last (f : List (Option ℚ)) (h : f ≠ []) :
    iloc f (-1) = .ok (f.getLast h) ∧
    (f.getLast h = none → ∀ c d, metricBlock f = .ok (c, d) →
      c = none ∧ d = none) := by
  refine ⟨iloc_neg_one f h, ?_⟩
  intro hnull c d hmb
  unfold metricBlock at hmb
  rw [iloc_neg_one f h, hnull] at hmb
  dsimp only at hmb
  split at hmb
  · simp at hmb
  rename_i prev h2
  simp only [Except.ok.injEq, Prod.mk.injEq] at hmb
  obtain ⟨hc, hd⟩ := hmb
  refine ⟨hc.symm, ?_⟩
  rw [← hd]
  cases prev <;> rfl

theorem c7_latest_literal_last_witness :
    iloc ([some 1, none] : List (Option ℚ)) (-1) = .ok none :=
  (c7_latest_literal_last [some 1, none] (by decide)).1

/-- C9: on a Series sorted by the ingestion invariant, the data range
panel shows the timestamps of the first and the last positions (however
null the sensor fields may be) and the elapsed days are the floor of
their difference in whole days, never negative. -/
theorem c9_range_days (ts : List (Option Int))
    (hsort : List.Pairwise (fun a b => ntLe a b = true) ts)
    (ft lt d : Int) (hr : rangeBlock ts = .ok (ft, lt, d)) :
    ts.get? 0 = some (some ft) ∧ ts.get? (ts.length - 1) = some (some lt) ∧
    d = Int.fdiv (lt - ft) 86400 ∧ 0 ≤ d := by
  unfold rangeBlock at hr
  split at hr
  · simp at hr
  rename_i ftRaw h0
  split at hr
  · simp at hr
  rename_i ltRaw h1
  split at hr
  · simp at hr
  rename_i ft2 h2
  split at hr
  · simp at hr
  rename_i lt2 h3
  simp only [Except.ok.injEq, Prod.mk.injEq] at hr
  obtain ⟨hf2, hl2, hd⟩ := hr
  subst hf2
  subst hl2
  subst hd
  obtain ⟨g0, hlen⟩ := iloc_zero_inv h0
  obtain ⟨g1, _⟩ := iloc_neg_one_inv h1
  have hfr := strftimeTs_ok h2
  have hlr := strftimeTs_ok h3
  subst hfr
  subst hlr
  refine ⟨g0, g1, rfl, ?_⟩
  have hle : ft2 ≤ lt2 := by
    by_cases hone : ts.length = 1
    · rw [hone] at g1
      rw [show (1 : Nat) - 1 = 0 from rfl] at g1
      rw [g0] at g1
      simp only [Option.some.injEq] at g1
      omega
    · have h2len : 2 ≤ ts.length := by omega
      have hpair := List.pairwise_iff_get.mp hsort ⟨0, by omega⟩
        ⟨ts.length - 1, by omega⟩ (Fin.mk_lt_mk.mpr (by omega))
      rw [List.get?_eq_get (by omega : 0 < ts.length)] at g0
      rw [List.get?_eq_get (by omega : ts.length - 1 < ts.length)] at g1
      simp only [Option.some.injEq] at g0 g1
      rw [g0, g1] at hpair
      simpa [ntLe] using hpair
  exact Int.fdiv_nonneg (by omega) (by norm_num)

theorem c9_range_days_witness :
    ([some 0, some 90000] : List (Option Int)).get? 0 = some (some 0) ∧
    ([some 0, some 90000] : List (Option Int)).get? 1 = some (some 90000) ∧
    (1 : Int) = Int.fdiv (90000 - 0) 86400 ∧ (0 : Int) ≤ 1 :=
  c9_range_days [some 0, some 90000] (by decide) 0 90000 1 (by decide)

end DS
